import Mathlib

/-!
Verification of KinichKakmo's search-result filtering and export pipeline
(`src/KinichKakmo.py`): a shallow embedding of the record model, the
`apply_filters` function, the prefix limiter, and the export row / PDF
table construction, followed by theorems about the spec's claims.

Modelling conventions:
* A Python dict record becomes the structure `Record`; a key that may be
  absent becomes an `Option` field, and `d.get(k, v)` becomes `Option.getD`.
* Python `str.lower()` becomes `Char.toLower` mapped over the character
  list (the labels and constraints involved are ASCII, where the two agree).
* Python substring membership `needle in hay` becomes the boolean `strHas`.
* Match scores arrive from the API as finite floats; every finite float is
  a rational and the only operation performed on scores here is an order
  comparison, which agrees with the rational order, so scores are `ℚ`.
-/

/-- Lowercased character sequence of a string: models Python `s.lower()`
for the ASCII strings the program manipulates. -/
def low (s : String) : List Char :=
  s.data.map Char.toLower

/-- `strStarts needle hay` : does `hay` start with `needle`? -/
def strStarts : List Char → List Char → Bool
  | [], _ => true
  | _ :: _, [] => false
  | c :: cs, d :: ds => c == d && strStarts cs ds

/-- `strHas needle hay` : does `needle` occur contiguously in `hay`?
Models Python `needle in hay` on strings (the empty needle matches). -/
def strHas (needle : List Char) : List Char → Bool
  | [] => strStarts needle []
  | d :: ds => strStarts needle (d :: ds) || strHas needle ds

/-- Case-insensitive substring test: models the ubiquitous pattern
`needle.lower() in hay.lower()` of `apply_filters` (KinichKakmo.py
lines 335-337, 356-357, 371). -/
def containsCI (needle hay : String) : Bool :=
  strHas (low needle) (low hay)

/-- One element of a record's `types` list: a dict carrying an optional
`name` key. -/
structure TypeEntry where
  name : Option String
deriving DecidableEq, Repr

/-- One API search hit (the dicts consumed by `apply_filters`, the result
display loop and the export block). Absent keys are `none`. -/
structure Record where
  name : Option String
  description : Option String
  score : Option ℚ
  id : Option String
  types : Option (List TypeEntry)
deriving DecidableEq, Repr

/-- Source-filter predicate (lines 332-338): some selected source label
occurs case-insensitively in `r.get('description','')` or
`r.get('name','')`. -/
def sourcePass (sources : List String) (r : Record) : Bool :=
  sources.any fun s =>
    containsCI s (r.description.getD "") || containsCI s (r.name.getD "")

/-- Entity-type predicate (lines 341-346): `r.get('types')` must be a
non-empty list (Python truthiness plus the `len > 0` check) and the first
element's `name` (default `''`) must equal the constraint exactly. -/
def typePass (entityType : String) (r : Record) : Bool :=
  match r.types with
  | some (t :: _) => t.name.getD "" == entityType
  | _ => false

/-- Score predicate (line 350): `r.get('score', 0) >= min_score`. -/
def scorePass (minScore : ℚ) (r : Record) : Bool :=
  decide (minScore ≤ r.score.getD 0)

/-- Jurisdiction predicate (lines 353-358): the jurisdiction string occurs
case-insensitively in the description or the name. -/
def jurisPass (j : String) (r : Record) : Bool :=
  containsCI j (r.description.getD "") || containsCI j (r.name.getD "")

/-- `date_source_map.get(date_range, [])` (lines 362-367): the fixed
bucket-to-labels dictionary, with `[]` for any unmapped key. -/
def dateSourceMap (dateRange : String) : List String :=
  if dateRange = "2021-Present (Pandora)" then ["Pandora Papers"]
  else if dateRange = "2016-2017 (Panama/Paradise/Bahamas)" then
    ["Panama Papers", "Paradise Papers", "Bahamas Leaks"]
  else if dateRange = "2013 (Offshore Leaks)" then ["Offshore Leaks"]
  else []

/-- Date-range predicate (lines 369-372): some allowed label occurs
case-insensitively in `r.get('description','')`; the name is not read. -/
def datePass (allowed : List String) (r : Record) : Bool :=
  allowed.any fun s => containsCI s (r.description.getD "")

/-- Stage 1 of `apply_filters` (lines 332-338), guarded by the Python
truthiness of `sources` (active iff the list is non-empty). -/
def sourceStage (sources : List String) (l : List Record) : List Record :=
  if sources.isEmpty then l else l.filter (sourcePass sources)

/-- Stage 2 of `apply_filters` (lines 341-346), guarded by
`entity_type != "All"`. -/
def typeStage (entityType : String) (l : List Record) : List Record :=
  if entityType = "All" then l else l.filter (typePass entityType)

/-- Stage 3 of `apply_filters` (lines 349-350), guarded by
`min_score > 0`. -/
def scoreStage (minScore : ℚ) (l : List Record) : List Record :=
  if minScore > 0 then l.filter (scorePass minScore) else l

/-- Stage 4 of `apply_filters` (lines 353-358), guarded by the Python
truthiness of `jurisdiction` (active iff the string is non-empty). -/
def jurisStage (jurisdiction : String) (l : List Record) : List Record :=
  if jurisdiction = "" then l else l.filter (jurisPass jurisdiction)

/-- Stage 5 of `apply_filters` (lines 361-372), guarded by
`date_range != "All Time"` and by the truthiness of `allowed_sources`. -/
def dateStage (dateRange : String) (l : List Record) : List Record :=
  if dateRange = "All Time" then l
  else
    let allowed := dateSourceMap dateRange
    if allowed.isEmpty then l else l.filter (datePass allowed)

/-- `apply_filters` (lines 320-374): the five guarded stages applied in
source order, each rebinding `filtered`. -/
def apply_filters (results : List Record) (sources : List String)
    (entity_type : String) (min_score : ℚ) (jurisdiction : String)
    (date_range : String) : List Record :=
  dateStage date_range
    (jurisStage jurisdiction
      (scoreStage min_score
        (typeStage entity_type
          (sourceStage sources results))))

/-- `filtered_results[:max_results]` (line 801): prefix truncation. -/
def limitResults (xs : List Record) (maxCount : ℕ) : List Record :=
  xs.take maxCount

/-- Display-path entity name (line 847): `r.get('name', 'Unknown Entity')`. -/
def displayName (r : Record) : String :=
  r.name.getD "Unknown Entity"

/-- Display-path match score (line 849): `r.get('score', 0)`. -/
def displayScore (r : Record) : ℚ :=
  r.score.getD 0

/-- Display-path effective type (line 851, identically line 1086):
`r.get('types', [dict()])[0].get('name', 'Entity') if r.get('types') else
'Entity'` — a missing or empty `types` list falls back to `"Entity"`, as
does a first element without a `name` key. -/
def effType (r : Record) : String :=
  match r.types with
  | some (t :: _) => t.name.getD "Entity"
  | _ => "Entity"

/-- Export `Type` column lambda (lines 894-896) applied to one present
cell value `x`: `x[0].get('name', 'Entity') if x and len(x) > 0 else
'Entity'`. An empty list is falsy, so it maps to `"Entity"`. -/
def exportTypeCell : List TypeEntry → String
  | t :: _ => t.name.getD "Entity"
  | [] => "Entity"

/-- Line 893: the `Type` column is built only when `'types' in df.columns`,
i.e. when at least one record of the result set carries a `types` key
(`pd.DataFrame` makes the column union of the per-record keys). -/
def hasTypesCol (rs : List Record) : Bool :=
  rs.any fun r => r.types.isSome

/-- The `name` column exists in the DataFrame iff some record carries
the `name` key. -/
def hasNameCol (rs : List Record) : Bool :=
  rs.any fun r => r.name.isSome

/-- The `score` column exists iff some record carries the `score` key. -/
def hasScoreCol (rs : List Record) : Bool :=
  rs.any fun r => r.score.isSome

/-- The `id` column exists iff some record carries the `id` key. -/
def hasIdCol (rs : List Record) : Bool :=
  rs.any fun r => r.id.isSome

/-- One successfully built row of `df_export` (lines 890-903): the raw
`name`, `score`, `id` cells of the DataFrame — no fallback is applied to
them, a record missing the key in a column other records do carry gets a
NaN cell, modelled as `none` — plus the `Type` cell (`none` when the
result set has no `Type` column at all). -/
structure ExportRow where
  entityName : Option String
  matchScore : Option ℚ
  icijId : Option String
  etype : Option String
deriving DecidableEq, Repr

/-- Builds the `df_export` row of one record; `ht` records whether the
result set has a `Type` column (line 893). When the column exists but
this record has no `types` key, the cell is the float NaN, which is
truthy, and the lambda of lines 894-896 then evaluates `len` of a float
and raises `TypeError` — modelled as `Except.error`. -/
def exportRowE : Bool → Record → Except String ExportRow
  | false, r => .ok ⟨r.name, r.score, r.id, none⟩
  | true, r =>
    match r.types with
    | some l => .ok ⟨r.name, r.score, r.id, some (exportTypeCell l)⟩
    | none => .error "TypeError"

/-- The `df_export` construction over a result set (lines 890-903).
`df[['name', 'score', 'id']]` (line 891) raises `KeyError` when any of
those columns is absent from the whole DataFrame; otherwise the rows are
built, surfacing the `TypeError` of a NaN `types` cell when the `Type`
column exists (lines 893-896). -/
def exportRowsE (rs : List Record) : Except String (List ExportRow) :=
  if hasNameCol rs && hasScoreCol rs && hasIdCol rs then
    rs.mapM (exportRowE (hasTypesCol rs))
  else
    .error "KeyError"

/-- A cell of an export table: a possibly-missing string or number. -/
inductive Cell
  | str : Option String → Cell
  | num : Option ℚ → Cell
deriving DecidableEq, Repr

/-- The three-column row handed to the PDF formatter (line 929:
`df_export[['Entity Name', 'Match Score', 'ICIJ ID']]`). -/
def pdfRowOf (r : Record) : List Cell :=
  [Cell.str r.name, Cell.num r.score, Cell.str r.id]

/-- Header of the PDF table: the three projected column names. -/
def pdfHeader : List String :=
  ["Entity Name", "Match Score", "ICIJ ID"]

/-- `table_data` of `create_pdf_export` (line 258): the column headers
followed by one body row per export record. -/
def pdfTableData (rs : List Record) : List (List Cell) :=
  (pdfHeader.map fun h => Cell.str (some h)) :: rs.map pdfRowOf

/-- Column widths of the PDF table in inches (lines 260-264):
`[2*inch, 0.8*inch, 1.5*inch]`, extended by `1.2*inch` per extra column
when there are more than three, then truncated to the column count. -/
def pdfColWidths (ncols : ℕ) : List ℚ :=
  let base : List ℚ := [2, 4/5, 3/2]
  let ws := if 3 < ncols then base ++ List.replicate (ncols - 3) (6/5) else base
  ws.take ncols

/-- The full `df_export` row shape handed to the CSV and Excel formatters
(lines 890-903) on the non-error path (the error paths of the
construction are `exportRowsE`): name, score, id, the conditional `Type`
column, then the search query, the search date and the constructed ICIJ
link (`f"ICIJ_NODE_URL x"` renders a missing id cell as the string
"nan"). -/
def csvRowOf (query dateStr : String) (ht : Bool) (r : Record) : List Cell :=
  [Cell.str r.name, Cell.num r.score, Cell.str r.id]
    ++ (if ht then [Cell.str (r.types.map exportTypeCell)] else [])
    ++ [Cell.str (some query), Cell.str (some dateStr),
        Cell.str (some ("https://offshoreleaks.icij.org/nodes/" ++ r.id.getD "nan"))]

/-- The first record of the spec's score-filter scenario
(`name "Alpha"`, `score 90`, description "Panama Papers entity"). -/
def alphaRec : Record :=
  ⟨some "Alpha", some "Panama Papers entity", some 90, none, none⟩

/-- The second record of the spec's score-filter scenario
(`name "Beta"`, `score 40`, description "Unrelated"). -/
def betaRec : Record :=
  ⟨some "Beta", some "Unrelated", some 40, none, none⟩

/-! ## Helper lemmas -/

theorem sourceStage_sublist (sources : List String) (l : List Record) :
    List.Sublist (sourceStage sources l) l := by
  unfold sourceStage
  split
  · exact List.Sublist.refl l
  · exact List.filter_sublist l

theorem typeStage_sublist (et : String) (l : List Record) :
    List.Sublist (typeStage et l) l := by
  unfold typeStage
  split
  · exact List.Sublist.refl l
  · exact List.filter_sublist l

theorem scoreStage_sublist (ms : ℚ) (l : List Record) :
    List.Sublist (scoreStage ms l) l := by
  unfold scoreStage
  split
  · exact List.filter_sublist l
  · exact List.Sublist.refl l

theorem jurisStage_sublist (j : String) (l : List Record) :
    List.Sublist (jurisStage j l) l := by
  unfold jurisStage
  split
  · exact List.Sublist.refl l
  · exact List.filter_sublist l

theorem dateStage_sublist (dr : String) (l : List Record) :
    List.Sublist (dateStage dr l) l := by
  unfold dateStage
  split
  · exact List.Sublist.refl l
  · dsimp only
    split
    · exact List.Sublist.refl l
    · exact List.filter_sublist l

theorem apply_filters_sublist_aux (rs : List Record) (sources : List String)
    (et : String) (ms : ℚ) (j dr : String) :
    List.Sublist (apply_filters rs sources et ms j dr) rs := by
  unfold apply_filters
  exact ((((dateStage_sublist _ _).trans (jurisStage_sublist _ _)).trans
    (scoreStage_sublist _ _)).trans (typeStage_sublist _ _)).trans
    (sourceStage_sublist _ _)

theorem stage_nil (sources : List String) (et : String) (ms : ℚ)
    (j dr : String) :
    sourceStage sources [] = [] ∧ typeStage et [] = [] ∧
    scoreStage ms [] = [] ∧ jurisStage j [] = [] ∧ dateStage dr [] = [] := by
  refine ⟨?_, ?_, ?_, ?_, ?_⟩ <;>
    simp [sourceStage, typeStage, scoreStage, jurisStage, dateStage]

/-! ## Claim theorems -/

/-- C3: with every criterion at its "no constraint" default (empty source
list, type "All", minimum score 0, empty jurisdiction, "All Time"),
`apply_filters` is the identity, and the empty input yields the empty
output under every criteria combination. -/
theorem apply_filters_identity_on_defaults :
    (∀ rs : List Record, apply_filters rs [] "All" 0 "" "All Time" = rs) ∧
    (∀ (sources : List String) (et : String) (ms : ℚ) (j dr : String),
      apply_filters [] sources et ms j dr = []) := by
  constructor
  · intro rs
    simp [apply_filters, sourceStage, typeStage, scoreStage, jurisStage,
      dateStage]
  · intro sources et ms j dr
    have h := stage_nil sources et ms j dr
    unfold apply_filters
    rw [h.1, h.2.1, h.2.2.1, h.2.2.2.1, h.2.2.2.2]

/-- C4: for every input and every criteria, the output of `apply_filters`
is a sublist of the input — the relative order of the surviving records
is preserved and the length never grows. (The embedding is pure, so the
translated `apply_filters` cannot mutate its input; in the Python source
every stage builds a fresh list comprehension and never writes to `results`
or to a record.) -/
theorem apply_filters_is_sublist :
    ∀ (rs : List Record) (sources : List String) (et : String) (ms : ℚ)
      (j dr : String),
      List.Sublist (apply_filters rs sources et ms j dr) rs ∧
      (apply_filters rs sources et ms j dr).length ≤ rs.length := by
  intro rs sources et ms j dr
  have h := apply_filters_sublist_aux rs sources et ms j dr
  exact ⟨h, h.length_le⟩

theorem containsCI_low_congr (a b : String) (h : low a = low b)
    (hay : String) : containsCI a hay = containsCI b hay := by
  unfold containsCI
  rw [h]

/-- C5: the source filter is active iff the allow-list is non-empty and a
record passes iff some allowed label occurs case-insensitively in the
effective description or effective name; the jurisdiction predicate is
exactly the singleton source predicate; and any two match strings with the
same lowercasing behave identically in both filters. -/
theorem source_jurisdiction_case_insensitive :
    (∀ (sources : List String) (rs : List Record),
        sourceStage sources rs =
          if sources.isEmpty then rs else rs.filter (sourcePass sources)) ∧
    (∀ (sources : List String) (r : Record),
        sourcePass sources r = true ↔
          ∃ s ∈ sources,
            (containsCI s (r.description.getD "") ||
             containsCI s (r.name.getD "")) = true) ∧
    (∀ (j : String) (r : Record), jurisPass j r = sourcePass [j] r) ∧
    (∀ a b : String, low a = low b →
        ∀ (tl : List String) (r : Record),
          sourcePass (a :: tl) r = sourcePass (b :: tl) r ∧
          jurisPass a r = jurisPass b r) := by
  refine ⟨fun _ _ => rfl, ?_, ?_, ?_⟩
  · intro sources r
    exact List.any_eq_true
  · intro j r
    simp [jurisPass, sourcePass]
  · intro a b h tl r
    constructor
    · simp only [sourcePass, List.any_cons,
        containsCI_low_congr a b h (r.description.getD ""),
        containsCI_low_congr a b h (r.name.getD "")]
    · simp only [jurisPass,
        containsCI_low_congr a b h (r.description.getD ""),
        containsCI_low_congr a b h (r.name.getD "")]

/-- C5 witness: instantiated with the match strings "PANAMA" and "panama"
on the Alpha record of the spec scenario. -/
theorem source_jurisdiction_case_insensitive_witness :
    low "PANAMA" = low "panama" ∧
    sourcePass ["PANAMA"] alphaRec = sourcePass ["panama"] alphaRec ∧
    jurisPass "PANAMA" alphaRec = jurisPass "panama" alphaRec := by
  have h : low "PANAMA" = low "panama" := by decide
  have h2 := source_jurisdiction_case_insensitive.2.2.2 "PANAMA" "panama" h
    [] alphaRec
  exact ⟨h, h2.1, h2.2⟩

/-- C6: the date-range filter is active iff the bucket differs from
"All Time" and its allow-list is non-empty; the three non-default buckets
map to their fixed label lists, the 2013 bucket to the single label
"Offshore Leaks"; a record passes iff some label of the allow-list occurs
case-insensitively in the effective description; and the predicate reads
only the description, never the name. -/
theorem date_range_filter_spec :
    (∀ rs : List Record, dateStage "All Time" rs = rs) ∧
    (∀ (dr : String) (rs : List Record), dr ≠ "All Time" →
        dateSourceMap dr ≠ [] →
        dateStage dr rs = rs.filter (datePass (dateSourceMap dr))) ∧
    (dateSourceMap "2013 (Offshore Leaks)" = ["Offshore Leaks"] ∧
     dateSourceMap "2021-Present (Pandora)" = ["Pandora Papers"] ∧
     dateSourceMap "2016-2017 (Panama/Paradise/Bahamas)" =
       ["Panama Papers", "Paradise Papers", "Bahamas Leaks"]) ∧
    (∀ (allowed : List String) (r : Record),
        datePass allowed r = true ↔
          ∃ s ∈ allowed, containsCI s (r.description.getD "") = true) ∧
    (∀ (allowed : List String) (r r' : Record),
        r.description = r'.description →
        datePass allowed r = datePass allowed r') := by
  refine ⟨?_, ?_, ⟨by decide, by decide, by decide⟩, ?_, ?_⟩
  · intro rs
    simp [dateStage]
  · intro dr rs h1 h2
    rw [dateStage, if_neg h1]
    dsimp only
    rw [if_neg (by simpa [List.isEmpty_iff] using h2)]
  · intro allowed r
    exact List.any_eq_true
  · intro allowed r r' h
    simp only [datePass, h]

/-- C6 witness: the 2013 bucket applied to the two scenario records keeps
none of them (neither description mentions "Offshore Leaks"). -/
theorem date_range_filter_spec_witness :
    ("2013 (Offshore Leaks)" : String) ≠ "All Time" ∧
    dateSourceMap "2013 (Offshore Leaks)" ≠ [] ∧
    dateStage "2013 (Offshore Leaks)" [alphaRec, betaRec] =
      List.filter (datePass (dateSourceMap "2013 (Offshore Leaks)"))
        [alphaRec, betaRec] := by
  refine ⟨by decide, by decide, ?_⟩
  exact date_range_filter_spec.2.1 "2013 (Offshore Leaks)" [alphaRec, betaRec]
    (by decide) (by decide)

/-- C10: any date-range value outside the four enumerated ones looks up
to the empty allow-list, the stage's inner guard fails, and the whole
filter behaves exactly as with "All Time": every record passes unchanged
and no error occurs. -/
theorem unmapped_date_range_is_inactive :
    ∀ dr : String, dr ≠ "All Time" → dr ≠ "2021-Present (Pandora)" →
      dr ≠ "2016-2017 (Panama/Paradise/Bahamas)" →
      dr ≠ "2013 (Offshore Leaks)" →
      dateSourceMap dr = [] ∧
      (∀ rs : List Record, dateStage dr rs = rs) ∧
      (∀ (rs : List Record) (sources : List String) (et : String) (ms : ℚ)
          (j : String),
        apply_filters rs sources et ms j dr =
          apply_filters rs sources et ms j "All Time") := by
  intro dr h1 h2 h3 h4
  have hmap : dateSourceMap dr = [] := by
    simp [dateSourceMap, h2, h3, h4]
  have hstage : ∀ rs : List Record, dateStage dr rs = rs := by
    intro rs
    rw [dateStage, if_neg h1]
    simp [hmap]
  refine ⟨hmap, hstage, ?_⟩
  intro rs sources et ms j
  rw [apply_filters, apply_filters, hstage, dateStage, if_pos rfl]

/-- C10 witness: the unmapped bucket "1999" leaves the scenario records
untouched. -/
theorem unmapped_date_range_is_inactive_witness :
    dateSourceMap "1999" = [] ∧
    dateStage "1999" [alphaRec, betaRec] = [alphaRec, betaRec] := by
  have h := unmapped_date_range_is_inactive "1999"
    (by decide) (by decide) (by decide) (by decide)
  exact ⟨h.1, h.2.1 [alphaRec, betaRec]⟩

/-- C7: the limiter returns exactly the first `n` records in order — it
is a prefix (appending the dropped tail restores the input) of length
`min n (length xs)`, passes a shorter sequence through unchanged without
clamping `n`, and is idempotent. Truncation happens after filtering and
never re-ranks: the order of the kept prefix is the input order. -/
theorem limitResults_prefix_truncation :
    (∀ (xs : List Record) (n : ℕ),
        limitResults xs n ++ xs.drop n = xs) ∧
    (∀ (xs : List Record) (n : ℕ),
        (limitResults xs n).length = min n xs.length) ∧
    (∀ (xs : List Record) (n : ℕ), xs.length ≤ n → limitResults xs n = xs) ∧
    (∀ (xs : List Record) (n : ℕ),
        limitResults (limitResults xs n) n = limitResults xs n) ∧
    limitResults [alphaRec, betaRec] 1 = [alphaRec] := by
  refine ⟨?_, ?_, ?_, ?_, by decide⟩
  · intro xs n
    exact List.take_append_drop n xs
  · intro xs n
    exact List.length_take n xs
  · intro xs n h
    exact List.take_of_length_le h
  · intro xs n
    simp [limitResults, List.take_take]

/-- C7 witness: the pass-through clause applied to the singleton Alpha
list with `n = 5`. -/
theorem limitResults_prefix_truncation_witness :
    ([alphaRec] : List Record).length ≤ 5 ∧ limitResults [alphaRec] 5 = [alphaRec] :=
  ⟨by decide, limitResults_prefix_truncation.2.2.1 [alphaRec] 5 (by decide)⟩

/-- C8: the score filter is active iff the minimum score is positive
(0 is the inactive sentinel), a record passes iff its effective score
(0 when absent) is at least the threshold (inclusive), and the spec
scenario [Alpha 90, Beta 40] with minimum 50 keeps exactly Alpha. -/
theorem score_filter_spec :
    (∀ (ms : ℚ) (rs : List Record), 0 < ms →
        scoreStage ms rs = rs.filter (scorePass ms)) ∧
    (∀ rs : List Record, scoreStage 0 rs = rs) ∧
    (∀ (ms : ℚ) (r : Record), scorePass ms r = true ↔ ms ≤ r.score.getD 0) ∧
    apply_filters [alphaRec, betaRec] [] "All" 50 "" "All Time" = [alphaRec] := by
  refine ⟨?_, ?_, ?_, by decide⟩
  · intro ms rs h
    rw [scoreStage, if_pos h]
  · intro rs
    simp [scoreStage]
  · intro ms r
    simp [scorePass]

/-- C8 witness: the activation clause applied to the scenario records at
threshold 50. -/
theorem score_filter_spec_witness :
    (0 : ℚ) < 50 ∧
    scoreStage 50 [alphaRec, betaRec] =
      List.filter (scorePass 50) [alphaRec, betaRec] :=
  ⟨by decide, score_filter_spec.1 50 [alphaRec, betaRec] (by decide)⟩

/-- C9: the PDF table receives the three-column projection (name, score,
id): every row of its table data, header included, has exactly three
cells, and the column widths for that three-column layout are the fixed
constants 2, 0.8 and 1.5 inches — a function of the column count only,
never of the cell contents — while the CSV/Excel row projection is wider
(six columns, seven when the result set carries type data). -/
theorem pdf_export_three_columns :
    (∀ rs : List Record,
        pdfTableData rs =
          (pdfHeader.map fun h => Cell.str (some h)) :: rs.map pdfRowOf) ∧
    (∀ (rs : List Record) (row : List Cell),
        row ∈ pdfTableData rs → row.length = 3) ∧
    pdfColWidths pdfHeader.length = [2, 4/5, 3/2] ∧
    (∀ (q d : String) (ht : Bool) (r : Record),
        (csvRowOf q d ht r).length = if ht then 7 else 6) := by
  refine ⟨fun _ => rfl, ?_, by rfl, ?_⟩
  · intro rs row hrow
    rw [pdfTableData] at hrow
    rcases List.mem_cons.mp hrow with h | h
    · rw [h]
      rfl
    · obtain ⟨r, _, hr⟩ := List.mem_map.mp h
      rw [← hr]
      rfl
  · intro q d ht r
    cases ht <;> rfl

/-- C9 witness: the row-length clause applied to the body row of the
Alpha record inside the singleton table. -/
theorem pdf_export_three_columns_witness :
    pdfRowOf alphaRec ∈ pdfTableData [alphaRec] ∧
    (pdfRowOf alphaRec).length = 3 :=
  ⟨by decide,
   pdf_export_three_columns.2.1 [alphaRec] (pdfRowOf alphaRec) (by decide)⟩

/-- A record carrying no `types` key (and otherwise ordinary fields),
used to exercise the type-filter fallback. -/
def noTypesRec : Record :=
  ⟨some "Acme Ltd", some "Panama Papers entity", some 75, some "n77", none⟩

/-- C1 counterexample: `noTypesRec` has effective type "Entity" in the
display sense (line 851), and the constraint "Entity" differs from "All",
yet an active type filter with constraint "Entity" drops the record — so
the filter does not keep a record whenever its effective type equals the
constraint. -/
theorem type_filter_fallback_cex :
    effType noTypesRec = "Entity" ∧
    ("Entity" : String) ≠ "All" ∧
    apply_filters [noTypesRec] [] "Entity" 0 "" "All Time" = [] := by
  refine ⟨by decide, by decide, by decide⟩

/-- C1 amended: for a constraint other than "All" the filter keeps a
record iff its `types` sequence is present and non-empty and the first
element's `name` — with the empty string, not "Entity", as the default —
equals the constraint exactly (case-sensitively); a record with absent or
empty `types` is always dropped by an active type filter, even when the
constraint is "Entity", although the display path (line 851) resolves its
effective type to "Entity". (The export path applies no such fallback
either: line 893 omits the `Type` column when no record carries `types`,
and with a mixed set the lambda of lines 894-896 raises `TypeError` on
the NaN cell — see `exportRowE`.) -/
theorem type_filter_requires_nonempty_types :
    (∀ (rs : List Record) (et : String), et ≠ "All" →
        apply_filters rs [] et 0 "" "All Time" = rs.filter (typePass et)) ∧
    (∀ (et : String) (r : Record),
        typePass et r = true ↔
          ∃ t ts, r.types = some (t :: ts) ∧ t.name.getD "" = et) ∧
    (∀ (et : String) (r : Record), (r.types = none ∨ r.types = some []) →
        typePass et r = false ∧ effType r = "Entity") := by
  refine ⟨?_, ?_, ?_⟩
  · intro rs et h
    simp [apply_filters, sourceStage, typeStage, scoreStage, jurisStage,
      dateStage, h]
  · intro et r
    cases hr : r.types with
    | none => simp [typePass, hr]
    | some l =>
      cases l with
      | nil => simp [typePass, hr]
      | cons t ts =>
        simp only [typePass, hr, beq_iff_eq, Option.some.injEq]
        constructor
        · intro h
          exact ⟨t, ts, rfl, h⟩
        · rintro ⟨t', ts', heq, hname⟩
          injection heq with h1 h2
          rw [h1]
          exact hname
  · intro et r h
    rcases h with h | h <;> simp [typePass, effType, h]

/-- C1 witness: the amended filter equation applied to the singleton
no-types record with constraint "Entity". -/
theorem type_filter_requires_nonempty_types_witness :
    ("Entity" : String) ≠ "All" ∧
    apply_filters [noTypesRec] [] "Entity" 0 "" "All Time" =
      List.filter (typePass "Entity") [noTypesRec] :=
  ⟨by decide,
   type_filter_requires_nonempty_types.1 [noTypesRec] "Entity" (by decide)⟩

/-- A record with no `name` key, ordinary otherwise. -/
def noNameRec : Record :=
  ⟨none, some "Panama Papers entity", some 50, some "x1", none⟩

/-- Shape of any successfully built export row: the raw `name`, `score`
and `id` cells are copied from the record unchanged. -/
theorem exportRowE_ok_shape (ht : Bool) (r : Record) (row : ExportRow)
    (h : exportRowE ht r = .ok row) :
    row.entityName = r.name ∧ row.matchScore = r.score ∧
    row.icijId = r.id := by
  cases ht with
  | false =>
    simp only [exportRowE, Except.ok.injEq] at h
    subst h
    exact ⟨rfl, rfl, rfl⟩
  | true =>
    cases hr : r.types with
    | none => simp [exportRowE, hr] at h
    | some l =>
      simp only [exportRowE, hr, Except.ok.injEq] at h
      subst h
      exact ⟨rfl, rfl, rfl⟩

/-- C2 counterexample: the mixed result set [Alpha, noNameRec] does have
`name`, `score` and `id` columns (Alpha carries a name, noNameRec an id),
so the export construction succeeds and produces rows — and the row of
the record with no `name` key carries an empty name cell, not the
display fallback "Unknown Entity": the export projection does not yield
the same effective value as the display path on a post-filter result set
containing a record with a missing field. -/
theorem export_fallback_cex :
    displayName noNameRec = "Unknown Entity" ∧
    exportRowsE [alphaRec, noNameRec] =
      Except.ok
        [⟨some "Alpha", some 90, none, none⟩,
         ⟨none, some 50, some "x1", none⟩] ∧
    (⟨none, some 50, some "x1", none⟩ : ExportRow).entityName ≠
      some (displayName noNameRec) := by
  refine ⟨by decide, by rfl, by decide⟩

/-- C2 amended: the display path applies the fallbacks (absent name →
"Unknown Entity", absent score → 0, absent or empty types → "Entity"),
and the score filter observes the same score fallback as display; but the
export construction applies no fallback to the `name`, `score` and `id`
columns: it raises `KeyError` when one of them is absent from the whole
result set, raises `TypeError` at a missing `types` cell when the `Type`
column exists, and on the non-error path copies those three cells raw —
agreeing with the display values only on records where the fields are
present — while its `Type` cell, built from a present `types` value,
agrees with the display effective type. -/
theorem export_copies_raw_fields :
    (∀ r : Record, displayName r = r.name.getD "Unknown Entity" ∧
        displayScore r = r.score.getD 0) ∧
    (∀ (ms : ℚ) (r : Record), scorePass ms r = decide (ms ≤ displayScore r)) ∧
    (∀ rs : List Record,
        (hasNameCol rs && hasScoreCol rs && hasIdCol rs) = false →
        exportRowsE rs = .error "KeyError") ∧
    (∀ r : Record, exportRowE true r = .error "TypeError" ↔ r.types = none) ∧
    (∀ (ht : Bool) (r : Record) (row : ExportRow),
        exportRowE ht r = .ok row →
        row.entityName = r.name ∧ row.matchScore = r.score ∧
        row.icijId = r.id) ∧
    (∀ (ht : Bool) (r : Record) (row : ExportRow) (n : String),
        exportRowE ht r = .ok row → r.name = some n →
        row.entityName = some (displayName r)) ∧
    (∀ (ht : Bool) (r : Record) (row : ExportRow) (s : ℚ),
        exportRowE ht r = .ok row → r.score = some s →
        row.matchScore = some (displayScore r)) ∧
    (∀ (r : Record) (l : List TypeEntry) (row : ExportRow),
        r.types = some l → exportRowE true r = .ok row →
        row.etype = some (effType r)) := by
  refine ⟨fun r => ⟨rfl, rfl⟩, fun ms r => rfl, ?_, ?_,
    fun ht r row h => exportRowE_ok_shape ht r row h, ?_, ?_, ?_⟩
  · intro rs h
    simp [exportRowsE, h]
  · intro r
    cases hr : r.types with
    | none => simp [exportRowE, hr]
    | some l => simp [exportRowE, hr]
  · intro ht r row n h hn
    rw [(exportRowE_ok_shape ht r row h).1, hn]
    simp [displayName, hn]
  · intro ht r row s h hs
    rw [(exportRowE_ok_shape ht r row h).2.1, hs]
    simp [displayScore, hs]
  · intro r l row hl h
    simp only [exportRowE, hl, Except.ok.injEq] at h
    subst h
    cases l with
    | nil => simp [exportTypeCell, effType, hl]
    | cons t ts => simp [exportTypeCell, effType, hl]

/-- C2 witness: the name-agreement clause applied to the Alpha record,
whose `name` is present and whose row builds successfully (no `Type`
column). -/
theorem export_copies_raw_fields_witness :
    exportRowE false alphaRec =
      Except.ok ⟨some "Alpha", some 90, none, none⟩ ∧
    alphaRec.name = some "Alpha" ∧
    (⟨some "Alpha", some 90, none, none⟩ : ExportRow).entityName =
      some (displayName alphaRec) :=
  ⟨by rfl, by decide,
   export_copies_raw_fields.2.2.2.2.2.1 false alphaRec
     ⟨some "Alpha", some 90, none, none⟩ "Alpha" (by rfl) (by decide)⟩
